import Mathlib

/-!
Shallow embedding of the restaurant ranking and pagination pipeline of
supabase/functions/get-restaurants/index.ts: the request handler that
fetches raw places from the provider, aggregates the caller interaction
log into a per-place signal map, normalizes and scores each place, drops
records without a resolved display name, sorts by score descending with a
stable sort, strips the internal score and passes the continuation token
through.

Numbers that the TypeScript code handles as JS numbers (ratings, scores,
millisecond durations divided by 1000) are embedded as rationals; the
haversine distance field is omitted from the normalized record because it
is transcendental floating-point arithmetic that no claim touches.
-/

attribute [local semireducible] Rat.mul Rat.add Rat.sub Rat.inv

namespace GetRestaurants

/-! ## JavaScript string primitives

The handler uses String.prototype.replace with a plain-string pattern
(which replaces only the first occurrence, anywhere in the string),
String.prototype.includes, String.prototype.startsWith,
String.prototype.split (only element [1] is used), String.prototype.trim,
and a global-regex replace of underscores. They are embedded over the
character list of the string. -/

/-- Finds the first occurrence of the pattern in the character list and
returns the pieces before and after it, or none when the pattern does not
occur. All of the JS string operations used by the handler derive from
this single search. -/
def splitFirstOcc (pat : List Char) : List Char → Option (List Char × List Char)
  | [] => if pat.isPrefixOf ([] : List Char) then some ([], []) else none
  | c :: cs =>
    if pat.isPrefixOf (c :: cs) then some ([], (c :: cs).drop pat.length)
    else (splitFirstOcc pat cs).map (fun q => (c :: q.1, q.2))

/-- JS s.replace(pat, "") with a plain-string pattern: removes the first
occurrence of pat anywhere in s; s is unchanged when pat does not occur. -/
def jsReplaceFirst (s pat : String) : String :=
  match splitFirstOcc pat.data s.data with
  | some (u, t) => ⟨u ++ t⟩
  | none => s

/-- JS s.includes(pat). -/
def jsIncludes (s pat : String) : Bool :=
  (splitFirstOcc pat.data s.data).isSome

/-- JS s.startsWith(pat). -/
def jsStartsWith (s pat : String) : Bool :=
  pat.data.isPrefixOf s.data

/-- JS s.split(pat)[1]: the piece between the first occurrence of pat and
the following occurrence (or the end of the string); undefined (none) when
pat does not occur at all. -/
def jsSplitPiece1 (s pat : String) : Option String :=
  match splitFirstOcc pat.data s.data with
  | none => none
  | some (_, rest) =>
    match splitFirstOcc pat.data rest with
    | some (u, _) => some ⟨u⟩
    | none => some ⟨rest⟩

/-- JS s.trim(): leading and trailing whitespace removed. -/
def jsTrim (s : String) : String :=
  ⟨((s.data.dropWhile Char.isWhitespace).reverse.dropWhile Char.isWhitespace).reverse⟩

/-- JS s.replace(underscore-global-regex, " "): every underscore becomes a
space (used to render type tags as cuisine labels). -/
def underscoresToSpaces (s : String) : String :=
  ⟨s.data.map (fun c => if c = '_' then ' ' else c)⟩

/-! ## Data model (interfaces GooglePhoto, GooglePlace and the rows read
from the restaurant_interactions table) -/

/-- The displayName field of a place: an object with a text field. -/
structure DisplayName where
  text : String
deriving DecidableEq

/-- interface GooglePhoto: an optional resource name. -/
structure GooglePhoto where
  name : Option String
deriving DecidableEq

/-- The currentOpeningHours field of a place. -/
structure OpeningHours where
  openNow : Option Bool
deriving DecidableEq

/-- interface GooglePlace: one raw provider record. The location field is
omitted (it only feeds the haversine distance, which is not embedded). -/
structure GooglePlace where
  id : String
  displayName : Option DisplayName
  formattedAddress : Option String
  rating : Option Rat
  userRatingCount : Option Int
  primaryType : Option String
  types : Option (List String)
  photos : Option (List GooglePhoto)
  priceLevel : Option String
  currentOpeningHours : Option OpeningHours
deriving DecidableEq

/-- One row of the restaurant_interactions query: place_id, action and
time_spent_ms, returned ordered by created_at descending. -/
structure InteractionRow where
  place_id : String
  action : String
  time_spent_ms : Int
deriving DecidableEq

/-- The value stored in the interaction map for one place id. -/
structure Signal where
  action : String
  time_spent_ms : Int
deriving DecidableEq

/-- The value inserted into the map for a row. -/
def toSignal (i : InteractionRow) : Signal :=
  { action := i.action, time_spent_ms := i.time_spent_ms }

/-- The interaction map is a JS Map in the source; it is embedded as an
association list in insertion order, read with List.lookup. -/
abbrev InteractionMap := List (String × Signal)

/-- One iteration of the loop that builds the interaction map: a row is
inserted only when its place id has no entry yet (the log is ordered most
recent first, so the first row seen for an id wins). -/
def interactionStep (m : InteractionMap) (i : InteractionRow) : InteractionMap :=
  if (m.lookup i.place_id).isSome then m else m ++ [(i.place_id, toSignal i)]

/-- The interactionMap fold over the interaction rows. -/
def buildInteractionMap (rows : List InteractionRow) : InteractionMap :=
  rows.foldl interactionStep []

/-! ## Place normalization and scoring -/

/-- The canonical place id: p.id.replace("places/", ""). -/
def canonicalId (id : String) : String :=
  jsReplaceFirst id "places/"

/-- The resolved display name: p.displayName?.text ?? "Unknown". -/
def resolveName (p : GooglePlace) : String :=
  match p.displayName with
  | some d => d.text
  | none => "Unknown"

/-- The cuisine label: p.primaryType?.replace(/_/g, " ") ??
p.types?.find(t => t.includes("restaurant"))?.replace(/_/g, " ") ??
"Restaurant". -/
def resolveCuisine (p : GooglePlace) : String :=
  match p.primaryType with
  | some t => underscoresToSpaces t
  | none =>
    match (p.types.getD []).find? (fun t => jsIncludes t "restaurant") with
    | some t => underscoresToSpaces t
    | none => "Restaurant"

/-- The body of the photo loop: a photo contributes an id exactly when its
resource name starts with "places/", contains "/photos/", and the piece
after "/photos/" is a non-empty string. -/
def photoIdOf (photo : GooglePhoto) : Option String :=
  match photo.name with
  | none => none
  | some n =>
    if jsStartsWith n "places/" && jsIncludes n "/photos/" then
      match jsSplitPiece1 n "/photos/" with
      | some pid => if pid != "" then some pid else none
      | none => none
    else none

/-- The photos array accumulated by the loop over p.photos ?? []. -/
def extractPhotoIds (photos : Option (List GooglePhoto)) : List String :=
  (photos.getD []).filterMap photoIdOf

/-- The score computation: score = rating * 20, then +50 for a like, -30
for an unlike, and for any action other than unlike a view-time bonus of
min(time_spent_ms / 1000, 10). -/
def computeScore (rating : Rat) (interaction : Option Signal) : Rat :=
  let score : Rat := rating * 20
  match interaction with
  | none => score
  | some i =>
    let score :=
      if i.action == "like" then score + 50
      else if i.action == "unlike" then score - 30
      else score
    if i.action != "unlike" then score + min ((i.time_spent_ms : Rat) / 1000) 10
    else score

/-- The canonical Restaurant shape returned to the client, after the
internal score field is stripped. -/
structure Restaurant where
  id : String
  name : String
  cuisine : String
  rating : Rat
  address : String
  userRatingCount : Int
  photos : List String
  priceLevel : Option String
  openNow : Option Bool
deriving DecidableEq

/-- The record built inside the map step, still carrying the internal
score (called _score in the source). -/
structure ScoredRestaurant extends Restaurant where
  score : Rat
deriving DecidableEq

/-- The body of the places.map step: normalize one raw place and attach
its score, looking the interaction up under the canonical id. -/
def normalizePlace (imap : InteractionMap) (p : GooglePlace) : ScoredRestaurant :=
  let placeId := canonicalId p.id
  let interaction := imap.lookup placeId
  { id := placeId
    name := resolveName p
    cuisine := resolveCuisine p
    rating := p.rating.getD 0
    address := p.formattedAddress.getD ""
    userRatingCount := p.userRatingCount.getD 0
    photos := extractPhotoIds p.photos
    priceLevel := p.priceLevel
    openNow := p.currentOpeningHours.bind (fun h => h.openNow)
    score := computeScore (p.rating.getD 0) interaction }

/-! ## Sort

The source sorts with Array.prototype.sort and the comparator
(a, b) => b._score - a._score; ECMAScript requires the sort to be stable,
so the result is the unique score-descending reordering that keeps
equal-score entries in input order. It is embedded as a stable insertion
sort by that comparator. -/

/-- Inserts a record into a score-descending list, after every entry whose
score is strictly greater and before the first entry whose score is less
than or equal (so an entry already in the list keeps priority only when
its score is strictly greater: ties stay in input order). -/
def insertDesc (x : ScoredRestaurant) : List ScoredRestaurant → List ScoredRestaurant
  | [] => [x]
  | y :: ys => if y.score ≤ x.score then x :: y :: ys else y :: insertDesc x ys

/-- Stable sort by score descending. -/
def sortDesc : List ScoredRestaurant → List ScoredRestaurant
  | [] => []
  | x :: xs => insertDesc x (sortDesc xs)

/-! ## The restaurants pipeline and the handler -/

/-- The map-and-filter stage of the restaurants pipeline: normalize every
raw place, then drop the records whose name resolved to the sentinel
"Unknown". -/
def scoredList (imap : InteractionMap) (places : List GooglePlace) : List ScoredRestaurant :=
  (places.map (normalizePlace imap)).filter (fun r => r.name != "Unknown")

/-- The pipeline up to and including the sort. -/
def rankedList (imap : InteractionMap) (places : List GooglePlace) : List ScoredRestaurant :=
  sortDesc (scoredList imap places)

/-- The full restaurants pipeline: map, filter, stable sort, strip the
internal score. -/
def restaurantsPipeline (imap : InteractionMap) (places : List GooglePlace) : List Restaurant :=
  (rankedList imap places).map ScoredRestaurant.toRestaurant

/-- The nextPageToken of the response: hasMore is token non-null with
non-blank trim, and the token is passed through verbatim when hasMore. -/
def nextTokenOut (tok : Option String) : Option String :=
  match tok with
  | none => none
  | some t => if jsTrim t == "" then none else some t

/-- The request body. lat and lng are none when the JSON field is absent
or is not a number (the typeof check of the source). -/
structure RequestBody where
  lat : Option Rat
  lng : Option Rat
  radius : Option Rat
  pageToken : Option String
deriving DecidableEq

/-- The provider response: ok mirrors response.ok, places mirrors
data.places ?? [], nextPageToken mirrors data.nextPageToken. -/
structure ProviderResponse where
  ok : Bool
  places : List GooglePlace
  nextPageToken : Option String
deriving DecidableEq

/-- The three outcomes of the handler body: the 400 bad-input response,
the 502 upstream-error response, and the success payload. -/
inductive HandlerResult where
  | badInput (error : String)
  | upstreamError (error : String)
  | page (restaurants : List Restaurant) (nextPageToken : Option String)
deriving DecidableEq

/-- The handler: validate lat and lng, fail the whole request when the
provider call was not ok, read the interaction rows only when a caller
identity was resolved, and assemble the page. The provider response and
the stored interaction rows are parameters standing for the two external
reads; userId is the identity the auth lookup resolved (none when there
was no Authorization header or the lookup failed). -/
def handleRequest (body : RequestBody) (upstream : ProviderResponse)
    (storedRows : List InteractionRow) (userId : Option String) : HandlerResult :=
  match body.lat, body.lng with
  | some _, some _ =>
    if upstream.ok = false then .upstreamError "Failed to fetch restaurants"
    else
      let userInteractions := match userId with
        | some _ => storedRows
        | none => []
      let imap := buildInteractionMap userInteractions
      .page (restaurantsPipeline imap upstream.places) (nextTokenOut upstream.nextPageToken)
  | _, _ => .badInput "lat and lng are required"

/-! ## Concrete sample inputs, used to instantiate the theorems -/

/-- A raw place with every optional field absent. -/
def blankPlace : GooglePlace :=
  { id := "", displayName := none, formattedAddress := none, rating := none,
    userRatingCount := none, primaryType := none, types := none, photos := none,
    priceLevel := none, currentOpeningHours := none }

/-- A rating-3 place named Alpha. -/
def placeAlpha : GooglePlace :=
  { blankPlace with id := "a", displayName := some ⟨"Alpha"⟩, rating := some 3 }

/-- A rating-4 place named Beta. -/
def placeBeta : GooglePlace :=
  { blankPlace with id := "b", displayName := some ⟨"Beta"⟩, rating := some 4 }

/-- A rating-5 place with no display name. -/
def placeNoName : GooglePlace :=
  { blankPlace with id := "c", rating := some 5 }

/-- A rating-4 place whose display name is present but empty. -/
def placeEmptyName : GooglePlace :=
  { blankPlace with id := "e", displayName := some ⟨""⟩, rating := some 4 }

/-- A rating-5 place whose display name is literally the string Unknown. -/
def placeNamedUnknown : GooglePlace :=
  { blankPlace with id := "u", displayName := some ⟨"Unknown"⟩, rating := some 5 }

/-- Two distinct raw records that resolve to the same canonical id. -/
def placeDupFirst : GooglePlace :=
  { blankPlace with id := "dup", displayName := some ⟨"First"⟩, rating := some 4 }

/-- The second record with the duplicated id. -/
def placeDupSecond : GooglePlace :=
  { blankPlace with id := "dup", displayName := some ⟨"Second"⟩, rating := some 3 }

/-- The rating-4 place of the worked scoring example of the spec. -/
def placeXanadu : GooglePlace :=
  { blankPlace with id := "x", displayName := some ⟨"Xanadu"⟩, rating := some 4 }

/-- An interaction map holding a like with 12000 ms view time for place x. -/
def sampleMapLike : InteractionMap := [("x", ⟨"like", 12000⟩)]

/-- A request body with a valid origin. -/
def goodBody : RequestBody :=
  { lat := some 45, lng := some (-122), radius := none, pageToken := none }

/-- A request body whose origin latitude is absent or not a number. -/
def badBody : RequestBody :=
  { lat := none, lng := some (-122), radius := none, pageToken := none }

/-- A successful provider response with two places and no further pages. -/
def okUpstream : ProviderResponse :=
  { ok := true, places := [placeAlpha, placeBeta], nextPageToken := none }

/-- A failed provider response. -/
def failedUpstream : ProviderResponse :=
  { ok := false, places := [placeAlpha, placeBeta], nextPageToken := some "tok" }

/-! ## Lemmas about the interaction map fold -/

theorem lookup_append_one (m : InteractionMap) (k pid : String) (v : Signal) :
    (m ++ [(k, v)]).lookup pid =
      match m.lookup pid with
      | some w => some w
      | none => if pid == k then some v else none := by
  induction m with
  | nil =>
    rw [List.nil_append, List.lookup_cons]
    cases h : (pid == k) with
    | true =>
      have he : pid = k := beq_iff_eq.mp h
      simp [he]
    | false =>
      have he : pid ≠ k := by simpa using h
      simp [he]
  | cons e m ih =>
    obtain ⟨a, b⟩ := e
    rw [List.cons_append, List.lookup_cons, List.lookup_cons]
    cases h : (pid == a) <;> simp [ih]

theorem lookup_none_iff_not_mem_keys (m : InteractionMap) (k : String) :
    m.lookup k = none ↔ k ∉ m.map Prod.fst := by
  induction m with
  | nil => simp [List.lookup]
  | cons e m ih =>
    obtain ⟨a, b⟩ := e
    rw [List.lookup_cons]
    cases h : (k == a) <;>
      simp_all [beq_iff_eq, List.mem_cons]

theorem foldl_step_lookup_some (rows : List InteractionRow) (acc : InteractionMap)
    (pid : String) (v : Signal) (h : acc.lookup pid = some v) :
    (rows.foldl interactionStep acc).lookup pid = some v := by
  induction rows generalizing acc with
  | nil => exact h
  | cons i rest ih =>
    rw [List.foldl_cons]
    apply ih
    unfold interactionStep
    by_cases hs : (acc.lookup i.place_id).isSome = true
    · rw [if_pos hs]; exact h
    · rw [if_neg hs, lookup_append_one, h]

theorem foldl_step_lookup_none (rows : List InteractionRow) (acc : InteractionMap)
    (pid : String) (h : acc.lookup pid = none) :
    (rows.foldl interactionStep acc).lookup pid
      = (rows.find? (fun i => i.place_id == pid)).map toSignal := by
  induction rows generalizing acc with
  | nil => simpa using h
  | cons i rest ih =>
    rw [List.foldl_cons]
    by_cases hpq : i.place_id = pid
    · have hacc : (acc.lookup i.place_id).isSome = false := by
        rw [hpq, h]; rfl
      have hstep : interactionStep acc i = acc ++ [(i.place_id, toSignal i)] := by
        unfold interactionStep
        rw [hacc]
        simp
      have hfind : List.find? (fun j => j.place_id == pid) (i :: rest) = some i := by
        rw [List.find?_cons_of_pos]
        simp [hpq]
      rw [hstep, hfind]
      apply foldl_step_lookup_some
      rw [lookup_append_one, h, hpq]
      simp
    · have hfind : List.find? (fun j => j.place_id == pid) (i :: rest)
          = List.find? (fun j => j.place_id == pid) rest := by
        rw [List.find?_cons_of_neg]
        simp [hpq]
      rw [hfind]
      have hstep : (interactionStep acc i).lookup pid = none := by
        unfold interactionStep
        by_cases hs : (acc.lookup i.place_id).isSome = true
        · rw [if_pos hs]; exact h
        · rw [if_neg hs, lookup_append_one, h]
          simp [Ne.symm hpq]
      exact ih _ hstep

theorem foldl_step_keys_nodup (rows : List InteractionRow) (acc : InteractionMap)
    (h : (acc.map Prod.fst).Nodup) :
    ((rows.foldl interactionStep acc).map Prod.fst).Nodup := by
  induction rows generalizing acc with
  | nil => exact h
  | cons i rest ih =>
    rw [List.foldl_cons]
    apply ih
    unfold interactionStep
    by_cases hs : (acc.lookup i.place_id).isSome = true
    · rw [if_pos hs]; exact h
    · rw [if_neg hs]
      have hnone : acc.lookup i.place_id = none := by
        cases hl : acc.lookup i.place_id with
        | none => rfl
        | some w => rw [hl] at hs; simp at hs
      have hnotin := (lookup_none_iff_not_mem_keys acc i.place_id).mp hnone
      simp [List.nodup_append, h, hnotin]

/-! ## Lemmas about the stable score-descending sort -/

theorem insertDesc_perm (x : ScoredRestaurant) (l : List ScoredRestaurant) :
    (insertDesc x l).Perm (x :: l) := by
  induction l with
  | nil => exact .refl _
  | cons y ys ih =>
    unfold insertDesc
    by_cases h : y.score ≤ x.score
    · rw [if_pos h]
    · rw [if_neg h]
      exact (ih.cons y).trans (List.Perm.swap x y ys)

theorem sortDesc_perm (l : List ScoredRestaurant) : (sortDesc l).Perm l := by
  induction l with
  | nil => exact .refl _
  | cons x xs ih =>
    exact (insertDesc_perm x (sortDesc xs)).trans (ih.cons x)

theorem insertDesc_pairwise (x : ScoredRestaurant) (l : List ScoredRestaurant)
    (h : l.Pairwise (fun a b => b.score ≤ a.score)) :
    (insertDesc x l).Pairwise (fun a b => b.score ≤ a.score) := by
  induction l with
  | nil => simp [insertDesc]
  | cons y ys ih =>
    rw [List.pairwise_cons] at h
    obtain ⟨hy, hys⟩ := h
    unfold insertDesc
    by_cases hc : y.score ≤ x.score
    · rw [if_pos hc, List.pairwise_cons]
      constructor
      · intro z hz
        rcases List.mem_cons.mp hz with rfl | hz
        · exact hc
        · exact le_trans (hy z hz) hc
      · exact List.pairwise_cons.mpr ⟨hy, hys⟩
    · rw [if_neg hc, List.pairwise_cons]
      refine ⟨?_, ih hys⟩
      intro z hz
      rcases List.mem_cons.mp ((insertDesc_perm x ys).mem_iff.mp hz) with rfl | hz
      · exact le_of_not_le hc
      · exact hy z hz

theorem sortDesc_pairwise (l : List ScoredRestaurant) :
    (sortDesc l).Pairwise (fun a b => b.score ≤ a.score) := by
  induction l with
  | nil => simp [sortDesc]
  | cons x xs ih => exact insertDesc_pairwise x (sortDesc xs) ih

theorem insertDesc_filter_score (s : Rat) (x : ScoredRestaurant) (l : List ScoredRestaurant) :
    (insertDesc x l).filter (fun r => r.score = s)
      = (x :: l).filter (fun r => r.score = s) := by
  induction l with
  | nil => rfl
  | cons y ys ih =>
    unfold insertDesc
    by_cases hc : y.score ≤ x.score
    · rw [if_pos hc]
    · rw [if_neg hc]
      by_cases hx : x.score = s
      · have hy : ¬ (y.score = s) := fun hy => hc (le_of_eq (hy.trans hx.symm))
        simp [List.filter_cons, hx, hy, ih]
      · simp [List.filter_cons, hx, ih]

theorem sortDesc_filter_score (s : Rat) (l : List ScoredRestaurant) :
    (sortDesc l).filter (fun r => r.score = s) = l.filter (fun r => r.score = s) := by
  induction l with
  | nil => rfl
  | cons x xs ih =>
    rw [sortDesc, insertDesc_filter_score]
    simp [List.filter_cons, ih]

/-! ## Lemmas characterizing the first-occurrence search -/

theorem splitFirstOcc_none (pat : List Char) :
    ∀ s : List Char, splitFirstOcc pat s = none → ∀ u t, s ≠ u ++ pat ++ t := by
  intro s
  induction s with
  | nil =>
    intro h u t heq
    have hup : u ++ pat = [] := (List.append_eq_nil.mp heq.symm).1
    have hp : pat = [] := (List.append_eq_nil.mp hup).2
    rw [splitFirstOcc, hp] at h
    simp [List.isPrefixOf] at h
  | cons c cs ih =>
    intro h u t heq
    rw [splitFirstOcc] at h
    by_cases hp : pat.isPrefixOf (c :: cs) = true
    · rw [if_pos hp] at h
      simp at h
    · rw [if_neg hp] at h
      have h2 : splitFirstOcc pat cs = none := by
        cases e : splitFirstOcc pat cs with
        | none => rfl
        | some q => rw [e] at h; simp at h
      cases u with
      | nil =>
        apply hp
        rw [List.isPrefixOf_iff_prefix]
        exact ⟨t, by simpa using heq.symm⟩
      | cons c₀ u₀ =>
        rw [List.cons_append, List.cons_append] at heq
        injection heq with hc hrest
        exact ih h2 u₀ t hrest

theorem splitFirstOcc_some (pat : List Char) :
    ∀ s u t : List Char, splitFirstOcc pat s = some (u, t) →
      s = u ++ pat ++ t ∧ ∀ u' t', s = u' ++ pat ++ t' → u.length ≤ u'.length := by
  intro s
  induction s with
  | nil =>
    intro u t h
    rw [splitFirstOcc] at h
    by_cases hp : pat.isPrefixOf ([] : List Char) = true
    · rw [if_pos hp] at h
      have hpat : pat = [] := List.prefix_nil.mp (List.isPrefixOf_iff_prefix.mp hp)
      simp only [Option.some.injEq, Prod.mk.injEq] at h
      obtain ⟨hu, ht⟩ := h
      subst hu; subst ht; subst hpat
      exact ⟨rfl, fun u' t' _ => by simp⟩
    · rw [if_neg hp] at h
      simp at h
  | cons c cs ih =>
    intro u t h
    rw [splitFirstOcc] at h
    by_cases hp : pat.isPrefixOf (c :: cs) = true
    · rw [if_pos hp] at h
      obtain ⟨r, hr⟩ := List.isPrefixOf_iff_prefix.mp hp
      simp only [Option.some.injEq, Prod.mk.injEq] at h
      obtain ⟨hu, ht⟩ := h
      subst hu; subst ht
      refine ⟨?_, fun u' t' _ => by simp⟩
      rw [List.nil_append, ← hr, List.drop_left]
    · rw [if_neg hp] at h
      cases e : splitFirstOcc pat cs with
      | none => rw [e] at h; simp at h
      | some q =>
        obtain ⟨u₀, t₀⟩ := q
        rw [e] at h
        simp only [Option.map_some', Option.some.injEq, Prod.mk.injEq] at h
        obtain ⟨hu, ht⟩ := h
        subst hu; subst ht
        obtain ⟨hseq, hmin⟩ := ih u₀ t₀ e
        constructor
        · rw [List.cons_append, List.cons_append, ← hseq]
        · intro u' t' heq'
          cases u' with
          | nil =>
            exfalso
            apply hp
            rw [List.isPrefixOf_iff_prefix]
            exact ⟨t', by simpa using heq'.symm⟩
          | cons c' u₁ =>
            rw [List.cons_append, List.cons_append] at heq'
            injection heq' with hc hrest
            have := hmin u₁ t' hrest
            simpa using Nat.succ_le_succ this

/-! ## Lemmas about the restaurants pipeline -/

theorem normalizePlace_name (imap : InteractionMap) (p : GooglePlace) :
    (normalizePlace imap p).name = resolveName p := rfl

theorem normalizePlace_id (imap : InteractionMap) (p : GooglePlace) :
    (normalizePlace imap p).id = canonicalId p.id := rfl

theorem normalizePlace_score (imap : InteractionMap) (p : GooglePlace) :
    (normalizePlace imap p).score
      = computeScore (p.rating.getD 0) (imap.lookup (canonicalId p.id)) := rfl

theorem scoredList_append (imap : InteractionMap) (l₁ l₂ : List GooglePlace) :
    scoredList imap (l₁ ++ l₂) = scoredList imap l₁ ++ scoredList imap l₂ := by
  simp [scoredList, List.filter_append]

theorem scoredList_cons_unknown (imap : InteractionMap) (p : GooglePlace)
    (l : List GooglePlace) (h : resolveName p = "Unknown") :
    scoredList imap (p :: l) = scoredList imap l := by
  rw [scoredList, List.map_cons, List.filter_cons]
  have hf : ((normalizePlace imap p).name != "Unknown") = false := by
    rw [normalizePlace_name, h]
    simp
  rw [hf]
  rfl

theorem pipeline_name_ne_unknown (imap : InteractionMap) (places : List GooglePlace) :
    ∀ r ∈ restaurantsPipeline imap places, r.name ≠ "Unknown" := by
  intro r hr
  obtain ⟨sr, hsr, hrfl⟩ := List.mem_map.mp hr
  have hmem : sr ∈ scoredList imap places := (sortDesc_perm _).mem_iff.mp hsr
  have hne := (List.mem_filter.mp hmem).2
  rw [bne_iff_ne] at hne
  rw [← hrfl]
  exact hne

/-! ## Claim theorems -/

/-- Claim C1: for a normalized place with rating r and the interaction signal
map built for the caller, the score is r * 20 when the map has no entry under
the canonical id of the place; r * 20 + 50 + min(timeSpentMs / 1000, 10) for a
like; r * 20 + min(timeSpentMs / 1000, 10) for a skip; and r * 20 - 30 with no
view-time bonus for an unlike. -/
theorem C1_score_from_interaction_signal (imap : InteractionMap) (p : GooglePlace)
    (r : Rat) (hr : p.rating = some r) :
    (imap.lookup (canonicalId p.id) = none → (normalizePlace imap p).score = r * 20)
    ∧ (∀ t : Int, imap.lookup (canonicalId p.id) = some ⟨"like", t⟩ →
        (normalizePlace imap p).score = r * 20 + 50 + min ((t : Rat) / 1000) 10)
    ∧ (∀ t : Int, imap.lookup (canonicalId p.id) = some ⟨"skip", t⟩ →
        (normalizePlace imap p).score = r * 20 + min ((t : Rat) / 1000) 10)
    ∧ (∀ t : Int, imap.lookup (canonicalId p.id) = some ⟨"unlike", t⟩ →
        (normalizePlace imap p).score = r * 20 - 30) := by
  refine ⟨?_, ?_, ?_, ?_⟩
  · intro h
    rw [normalizePlace_score, hr, h]
    rfl
  · intro t h
    rw [normalizePlace_score, hr, h]
    simp [computeScore]
  · intro t h
    rw [normalizePlace_score, hr, h]
    simp [computeScore]
  · intro t h
    rw [normalizePlace_score, hr, h]
    simp [computeScore]

/-- Witness for C1: the worked example of the spec. The rating-4 place with a
like of 12000 ms scores 140 (bonus capped at 10); the same place with no
interaction entry scores 80. -/
theorem C1_witness :
    placeXanadu.rating = some 4
    ∧ sampleMapLike.lookup (canonicalId placeXanadu.id) = some ⟨"like", 12000⟩
    ∧ (normalizePlace sampleMapLike placeXanadu).score = 140
    ∧ (normalizePlace [] placeXanadu).score = 80 := by
  refine ⟨rfl, by decide, ?_, ?_⟩
  · exact ((C1_score_from_interaction_signal sampleMapLike placeXanadu 4 rfl).2.1
      12000 (by decide)).trans (by decide)
  · exact ((C1_score_from_interaction_signal [] placeXanadu 4 rfl).1 rfl).trans (by decide)

/-- Claim C2: the returned list is the score-stripped image of the ranked
list; the ranked list is ordered by score descending; equal-score entries
keep provider order (the sort leaves every equal-score class exactly as it
occurs in the unsorted list); and permuting the raw input changes at most the
relative order inside equal-score classes: the score sequence is unchanged
and each equal-score class is preserved up to permutation. -/
theorem C2_sorted_stable_and_permutation_invariant (imap : InteractionMap)
    (l₁ l₂ : List GooglePlace) (hperm : l₁.Perm l₂) :
    (restaurantsPipeline imap l₁ = (rankedList imap l₁).map ScoredRestaurant.toRestaurant)
    ∧ (rankedList imap l₁).Pairwise (fun a b => b.score ≤ a.score)
    ∧ (∀ s : Rat, (rankedList imap l₁).filter (fun r => r.score = s)
        = (scoredList imap l₁).filter (fun r => r.score = s))
    ∧ ((rankedList imap l₁).map (fun r => r.score)
        = (rankedList imap l₂).map (fun r => r.score))
    ∧ (∀ s : Rat, ((rankedList imap l₁).filter (fun r => r.score = s)).Perm
        ((rankedList imap l₂).filter (fun r => r.score = s))) := by
  have hscored : (scoredList imap l₁).Perm (scoredList imap l₂) :=
    (hperm.map (normalizePlace imap)).filter _
  have hrank : (rankedList imap l₁).Perm (rankedList imap l₂) :=
    (sortDesc_perm _).trans (hscored.trans (sortDesc_perm _).symm)
  refine ⟨rfl, sortDesc_pairwise _, fun s => sortDesc_filter_score s _, ?_, ?_⟩
  · have h1 : ((rankedList imap l₁).map (fun r => r.score)).Pairwise
        (fun a b : Rat => a ≥ b) :=
      List.pairwise_map.mpr (sortDesc_pairwise _)
    have h2 : ((rankedList imap l₂).map (fun r => r.score)).Pairwise
        (fun a b : Rat => a ≥ b) :=
      List.pairwise_map.mpr (sortDesc_pairwise _)
    exact List.eq_of_perm_of_sorted (hrank.map _) h1 h2
  · intro s
    have h := hscored.filter (fun r => decide (r.score = s))
    simpa [rankedList, sortDesc_filter_score] using h

/-- Witness for C2: swapping the two sample places leaves the ranked score
sequence unchanged. -/
theorem C2_witness :
    ([placeAlpha, placeBeta].Perm [placeBeta, placeAlpha])
    ∧ ((rankedList [] [placeAlpha, placeBeta]).map (fun r => r.score)
        = (rankedList [] [placeBeta, placeAlpha]).map (fun r => r.score)) :=
  ⟨List.Perm.swap placeBeta placeAlpha [],
    (C2_sorted_stable_and_permutation_invariant [] [placeAlpha, placeBeta]
      [placeBeta, placeAlpha] (List.Perm.swap placeBeta placeAlpha [])).2.2.2.1⟩

/-- Claim C3: the interaction map holds, for each place id occurring in the
log, exactly the action and time-spent of the first event of the
most-recent-first log for that id (later events for a seen id are ignored);
its keys are distinct; an id is present exactly when it occurs in the log;
and with no caller identity the handler still succeeds, with the map built
from an empty log. -/
theorem C3_interaction_map_most_recent_wins (rows : List InteractionRow) (pid : String) :
    ((buildInteractionMap rows).lookup pid
        = (rows.find? (fun i => i.place_id == pid)).map toSignal)
    ∧ ((buildInteractionMap rows).map Prod.fst).Nodup
    ∧ (((buildInteractionMap rows).lookup pid).isSome = true
        ↔ ∃ i ∈ rows, i.place_id = pid)
    ∧ (∀ (body : RequestBody) (up : ProviderResponse) (stored : List InteractionRow)
        (la ln : Rat), body.lat = some la → body.lng = some ln → up.ok = true →
        handleRequest body up stored none
          = .page (restaurantsPipeline (buildInteractionMap []) up.places)
              (nextTokenOut up.nextPageToken)) := by
  have hlk := foldl_step_lookup_none rows [] pid rfl
  refine ⟨hlk, foldl_step_keys_nodup rows [] (by simp), ?_, ?_⟩
  · rw [buildInteractionMap, hlk]
    simp [List.find?_isSome, beq_iff_eq]
  · intro body up stored la ln hla hln hok
    simp [handleRequest, hla, hln, hok]

/-- Witness for C3: the two-event example of the spec (a more recent like
over an older skip for place X) yields the like signal; and a request with no
identity succeeds with the empty-log map. -/
theorem C3_witness :
    ((buildInteractionMap [⟨"X", "like", 9000⟩, ⟨"X", "skip", 500⟩]).lookup "X"
        = some ⟨"like", 9000⟩)
    ∧ handleRequest goodBody okUpstream [⟨"X", "like", 9000⟩] none
        = .page (restaurantsPipeline (buildInteractionMap []) okUpstream.places)
            (nextTokenOut okUpstream.nextPageToken) :=
  ⟨(C3_interaction_map_most_recent_wins
      [⟨"X", "like", 9000⟩, ⟨"X", "skip", 500⟩] "X").1.trans (by decide),
    (C3_interaction_map_most_recent_wins [] "").2.2.2 goodBody okUpstream
      [⟨"X", "like", 9000⟩] 45 (-122) rfl rfl rfl⟩

/-- Counterexample for C4: a raw place whose display name is present but the
empty string is returned with an empty name and counts toward the page size,
so not every returned restaurant has a non-empty resolved name. -/
theorem C4_counterexample :
    (restaurantsPipeline [] [placeEmptyName]).map (fun r => r.name) = [""]
    ∧ (restaurantsPipeline [] [placeEmptyName]).length = 1 := by
  decide

/-- Claim C4 (amended): every returned restaurant has a name different from
the missing-name sentinel Unknown, and a raw place whose display name is
absent never appears in the output regardless of its score: deleting it from
the raw list leaves the output unchanged, so it does not count toward the
page size. -/
theorem C4_missing_name_dropped (imap : InteractionMap) (l₁ l₂ : List GooglePlace)
    (p : GooglePlace) (h : p.displayName = none) :
    restaurantsPipeline imap (l₁ ++ p :: l₂) = restaurantsPipeline imap (l₁ ++ l₂)
    ∧ ∀ r ∈ restaurantsPipeline imap (l₁ ++ p :: l₂), r.name ≠ "Unknown" := by
  have hname : resolveName p = "Unknown" := by simp [resolveName, h]
  have hsc : scoredList imap (l₁ ++ p :: l₂) = scoredList imap (l₁ ++ l₂) := by
    rw [scoredList_append, scoredList_append, scoredList_cons_unknown imap p l₂ hname]
  constructor
  · simp only [restaurantsPipeline, rankedList, hsc]
  · exact pipeline_name_ne_unknown imap _

/-- Witness for C4: dropping the nameless sample place leaves the page
unchanged. -/
theorem C4_witness :
    placeNoName.displayName = none
    ∧ restaurantsPipeline [] [placeAlpha, placeNoName] = restaurantsPipeline [] [placeAlpha] :=
  ⟨rfl, (C4_missing_name_dropped [] [placeAlpha] [] placeNoName rfl).1⟩

/-- Counterexample for C5: two raw records resolving to the same canonical id
both appear in the output, so a place id can occur twice. -/
theorem C5_counterexample :
    (restaurantsPipeline [] [placeDupFirst, placeDupSecond]).map (fun r => r.id)
        = ["dup", "dup"]
    ∧ ¬ ((restaurantsPipeline [] [placeDupFirst, placeDupSecond]).map
          (fun r => r.id)).Nodup := by
  decide

/-- Claim C5 (amended): the pipeline performs no deduplication of its own,
so the output ids are distinct exactly when the canonical ids of the raw
records are: whenever the raw list has pairwise distinct canonical ids, each
place id appears at most once in the output (the signal map itself always
has at most one entry per id, by C3). -/
theorem C5_ids_nodup_of_raw_nodup (imap : InteractionMap) (places : List GooglePlace)
    (h : (places.map (fun p => canonicalId p.id)).Nodup) :
    ((restaurantsPipeline imap places).map (fun r => r.id)).Nodup := by
  have h1 : (restaurantsPipeline imap places).map (fun r => r.id)
      = (rankedList imap places).map (fun sr => sr.id) := by
    simp only [restaurantsPipeline, List.map_map]
    rfl
  have hcomp : ((fun sr : ScoredRestaurant => sr.id) ∘ normalizePlace imap)
      = fun p => canonicalId p.id := rfl
  have h2 : ((scoredList imap places).map (fun sr => sr.id)).Sublist
      (places.map (fun p => canonicalId p.id)) := by
    have hsub : (scoredList imap places).Sublist (places.map (normalizePlace imap)) :=
      List.filter_sublist _
    have := hsub.map (fun sr : ScoredRestaurant => sr.id)
    rwa [List.map_map, hcomp] at this
  have hperm : ((rankedList imap places).map (fun sr => sr.id)).Perm
      ((scoredList imap places).map (fun sr => sr.id)) := (sortDesc_perm _).map _
  rw [h1]
  exact hperm.nodup_iff.mpr (h2.nodup h)

/-- Witness for C5: the two sample places have distinct canonical ids and the
output ids are distinct. -/
theorem C5_witness :
    ([placeAlpha, placeBeta].map (fun p => canonicalId p.id)).Nodup
    ∧ ((restaurantsPipeline [] [placeAlpha, placeBeta]).map (fun r => r.id)).Nodup :=
  ⟨by decide, C5_ids_nodup_of_raw_nodup [] [placeAlpha, placeBeta] (by decide)⟩

/-- Counterexample for C6: an id that does not start with the resource-name
marker but contains it elsewhere is still altered: the first occurrence is
removed from the middle of the string. -/
theorem C6_counterexample :
    jsStartsWith "xplaces/y" "places/" = false
    ∧ canonicalId "xplaces/y" = "xy"
    ∧ canonicalId "xplaces/y" ≠ "xplaces/y" := by
  decide

/-- Claim C6 (amended): the canonical id removes the first occurrence of the
resource-name marker wherever it occurs, which strips the marker when the id
starts with it, and leaves the id unchanged exactly when the marker occurs
nowhere in it. -/
theorem C6_canonicalId_first_occurrence (s : String) :
    (∀ t : List Char, s.data = "places/".data ++ t → (canonicalId s).data = t)
    ∧ ((∀ u t : List Char, s.data ≠ u ++ "places/".data ++ t) → canonicalId s = s)
    ∧ (∀ u t : List Char, s.data = u ++ "places/".data ++ t →
        ∃ u' t' : List Char, s.data = u' ++ "places/".data ++ t'
          ∧ (canonicalId s).data = u' ++ t'
          ∧ ∀ u'' t'' : List Char, s.data = u'' ++ "places/".data ++ t'' →
              u'.length ≤ u''.length) := by
  refine ⟨?_, ?_, ?_⟩
  · intro t ht
    cases e : splitFirstOcc "places/".data s.data with
    | none =>
      exact absurd (by simpa using ht) (splitFirstOcc_none _ _ e [] t)
    | some q =>
      obtain ⟨u', t'⟩ := q
      obtain ⟨hseq, hmin⟩ := splitFirstOcc_some _ _ _ _ e
      have hu : u' = [] := List.length_eq_zero.mp
        (Nat.le_zero.mp (hmin [] t (by simpa using ht)))
      subst hu
      have ht' : t' = t := by
        have hpt : "places/".data ++ t' = "places/".data ++ t := by
          rw [← (show s.data = "places/".data ++ t' by simpa using hseq), ht]
        exact List.append_cancel_left hpt
      subst ht'
      simp [canonicalId, jsReplaceFirst, e]
  · intro hno
    cases e : splitFirstOcc "places/".data s.data with
    | none => simp [canonicalId, jsReplaceFirst, e]
    | some q =>
      obtain ⟨u', t'⟩ := q
      obtain ⟨hseq, hmin⟩ := splitFirstOcc_some _ _ _ _ e
      exact absurd hseq (hno u' t')
  · intro u t ht
    cases e : splitFirstOcc "places/".data s.data with
    | none => exact absurd ht (splitFirstOcc_none _ _ e u t)
    | some q =>
      obtain ⟨u', t'⟩ := q
      obtain ⟨hseq, hmin⟩ := splitFirstOcc_some _ _ _ _ e
      exact ⟨u', t', hseq, by simp [canonicalId, jsReplaceFirst, e], hmin⟩

/-- Witness for C6: a prefixed id has the marker stripped. -/
theorem C6_witness :
    ("places/abc" : String).data = "places/".data ++ "abc".data
    ∧ (canonicalId "places/abc").data = "abc".data :=
  ⟨by decide, (C6_canonicalId_first_occurrence "places/abc").1 "abc".data (by decide)⟩

/-- Claim C7: an absent or blank (empty or whitespace-only) provider
continuation token yields a null next-page token; a non-blank token is passed
through unchanged; and on success the handler emits exactly that token
mapping. -/
theorem C7_token_passthrough :
    (nextTokenOut none = none)
    ∧ (∀ t : String, jsTrim t = "" → nextTokenOut (some t) = none)
    ∧ (∀ t : String, jsTrim t ≠ "" → nextTokenOut (some t) = some t)
    ∧ (∀ (body : RequestBody) (up : ProviderResponse) (stored : List InteractionRow)
        (uid : Option String) (la ln : Rat),
        body.lat = some la → body.lng = some ln → up.ok = true →
        ∃ rs, handleRequest body up stored uid = .page rs (nextTokenOut up.nextPageToken)) := by
  refine ⟨rfl, ?_, ?_, ?_⟩
  · intro t h
    simp [nextTokenOut, h]
  · intro t h
    have hb : (jsTrim t == "") = false := beq_eq_false_iff_ne.mpr h
    simp [nextTokenOut, hb]
  · intro body up stored uid la ln hla hln hok
    cases uid with
    | none =>
      exact ⟨restaurantsPipeline (buildInteractionMap []) up.places,
        by simp [handleRequest, hla, hln, hok]⟩
    | some u =>
      exact ⟨restaurantsPipeline (buildInteractionMap stored) up.places,
        by simp [handleRequest, hla, hln, hok]⟩

/-- Witness for C7: a whitespace-only token becomes null and a non-blank
token passes through. -/
theorem C7_witness :
    nextTokenOut (some "   ") = none ∧ nextTokenOut (some "tok") = some "tok" :=
  ⟨C7_token_passthrough.2.1 "   " (by decide),
    C7_token_passthrough.2.2.1 "tok" (by decide)⟩

/-- Claim C8: when the provider response is not ok the whole request fails
with the single upstream-fetch error and no page (hence no restaurant list,
partial or otherwise) is ever produced. -/
theorem C8_upstream_failure_fails_whole_request (body : RequestBody)
    (up : ProviderResponse) (stored : List InteractionRow) (uid : Option String)
    (la ln : Rat) (hla : body.lat = some la) (hln : body.lng = some ln)
    (hok : up.ok = false) :
    handleRequest body up stored uid = .upstreamError "Failed to fetch restaurants"
    ∧ ∀ rs tok, handleRequest body up stored uid ≠ .page rs tok := by
  have he : handleRequest body up stored uid
      = .upstreamError "Failed to fetch restaurants" := by
    simp [handleRequest, hla, hln, hok]
  refine ⟨he, ?_⟩
  intro rs tok hcontra
  rw [he] at hcontra
  exact HandlerResult.noConfusion hcontra

/-- Witness for C8: the failed sample upstream response fails the request. -/
theorem C8_witness :
    handleRequest goodBody failedUpstream [] none
      = .upstreamError "Failed to fetch restaurants" :=
  (C8_upstream_failure_fails_whole_request goodBody failedUpstream [] none
    45 (-122) rfl rfl rfl).1

/-- Claim C9: a request whose origin latitude or longitude is absent or not a
number is rejected with the bad-input error; the outcome does not depend on
the provider response at all (no upstream call could change it) and no page
is produced. -/
theorem C9_bad_origin_rejected (body : RequestBody) (up up' : ProviderResponse)
    (stored : List InteractionRow) (uid : Option String)
    (h : body.lat = none ∨ body.lng = none) :
    handleRequest body up stored uid = .badInput "lat and lng are required"
    ∧ handleRequest body up stored uid = handleRequest body up' stored uid
    ∧ ∀ rs tok, handleRequest body up stored uid ≠ .page rs tok := by
  have he : ∀ u : ProviderResponse,
      handleRequest body u stored uid = .badInput "lat and lng are required" := by
    intro u
    rcases h with h | h
    · simp [handleRequest, h]
    · cases hl : body.lat with
      | none => simp [handleRequest, hl]
      | some a => simp [handleRequest, hl, h]
  refine ⟨he up, (he up).trans (he up').symm, ?_⟩
  intro rs tok hcontra
  rw [he up] at hcontra
  exact HandlerResult.noConfusion hcontra

/-- Witness for C9: the sample body with a missing latitude is rejected both
against the ok and the failed upstream response. -/
theorem C9_witness :
    handleRequest badBody okUpstream [] none = .badInput "lat and lng are required"
    ∧ handleRequest badBody okUpstream [] none
        = handleRequest badBody failedUpstream [] none :=
  ⟨(C9_bad_origin_rejected badBody okUpstream failedUpstream [] none (Or.inl rfl)).1,
    (C9_bad_origin_rejected badBody okUpstream failedUpstream [] none (Or.inl rfl)).2.1⟩

/-- Claim C10: a raw place whose display name is present and exactly the
string Unknown resolves to the same sentinel as a place with no display name
and is dropped identically: deleting it from the raw list leaves the output
unchanged. -/
theorem C10_unknown_literal_dropped (imap : InteractionMap) (l₁ l₂ : List GooglePlace)
    (p : GooglePlace) (h : p.displayName = some ⟨"Unknown"⟩) :
    restaurantsPipeline imap (l₁ ++ p :: l₂) = restaurantsPipeline imap (l₁ ++ l₂)
    ∧ resolveName p = resolveName { p with displayName := none } := by
  have hname : resolveName p = "Unknown" := by simp [resolveName, h]
  have hsc : scoredList imap (l₁ ++ p :: l₂) = scoredList imap (l₁ ++ l₂) := by
    rw [scoredList_append, scoredList_append, scoredList_cons_unknown imap p l₂ hname]
  constructor
  · simp only [restaurantsPipeline, rankedList, hsc]
  · rw [hname]
    rfl

/-- Witness for C10: the sample place literally named Unknown is dropped. -/
theorem C10_witness :
    placeNamedUnknown.displayName = some ⟨"Unknown"⟩
    ∧ restaurantsPipeline [] [placeAlpha, placeNamedUnknown]
        = restaurantsPipeline [] [placeAlpha] :=
  ⟨rfl, (C10_unknown_literal_dropped [] [placeAlpha] [] placeNamedUnknown rfl).1⟩

end GetRestaurants
